import Mathlib

/-!
Verification of the `nomic` repository (files `nomic/gpt4all.py` and
`nomic/aws/sagemaker.py`) against its natural-language specification.

The central artifact is the line-delimited subprocess reader
`GPT4All._parse_to_prompt`: a loop that reads one byte at a time from the
child process, accumulates bytes until they decode as UTF-8, splits the
decoded text into lines at `"\n"`, and returns the lines joined by `"\n"`
when the form-feed sentinel `"\f"` is decoded.  Bytes are modelled as `Nat`
(values `< 256` in all real streams), decoded text as lists of Unicode code
points (`Nat`), and the blocking byte source as a `List Nat`; exhausting the
list before the sentinel corresponds to the Python loop blocking forever and
is modelled as `none`.
-/

deriving instance DecidableEq for Except

/-- `True` of a UTF-8 continuation byte `0x80..0xBF`. -/
def isCont (b : Nat) : Bool := 0x80 ≤ b && b < 0xC0

/-- Admissible second byte of a 3-byte UTF-8 sequence with lead byte `b1`
(Python's strict decoder: lead `0xE0` requires `0xA0..0xBF` to exclude
overlong forms, lead `0xED` requires `0x80..0x9F` to exclude surrogates). -/
def secondByteOk3 (b1 b2 : Nat) : Bool :=
  if b1 = 0xE0 then 0xA0 ≤ b2 && b2 < 0xC0
  else if b1 = 0xED then 0x80 ≤ b2 && b2 < 0xA0
  else isCont b2

/-- Admissible second byte of a 4-byte UTF-8 sequence with lead byte `b1`
(lead `0xF0` requires `0x90..0xBF` to exclude overlong forms, lead `0xF4`
requires `0x80..0x8F` to stay below `0x110000`). -/
def secondByteOk4 (b1 b2 : Nat) : Bool :=
  if b1 = 0xF0 then 0x90 ≤ b2 && b2 < 0xC0
  else if b1 = 0xF4 then 0x80 ≤ b2 && b2 < 0x90
  else isCont b2

/-- Model of Python's strict `bytes.decode("utf-8")`: `some` of the decoded
code-point sequence when the whole byte list is valid UTF-8, `none` when a
`UnicodeDecodeError` would be raised (invalid lead byte, invalid
continuation byte, overlong form, surrogate, value above `0x10FFFF`, or a
truncated multi-byte sequence). -/
def decodeUtf8 : List Nat → Option (List Nat)
  | [] => some []
  | b1 :: rest =>
    if b1 < 0x80 then
      Option.map (fun cs => b1 :: cs) (decodeUtf8 rest)
    else if b1 < 0xC2 then
      none
    else
      match rest with
      | [] => none
      | b2 :: rest2 =>
        if b1 < 0xE0 then
          if isCont b2 then
            Option.map (fun cs => (0x40 * (b1 - 0xC0) + (b2 - 0x80)) :: cs) (decodeUtf8 rest2)
          else none
        else
          match rest2 with
          | [] => none
          | b3 :: rest3 =>
            if b1 < 0xF0 then
              if secondByteOk3 b1 b2 && isCont b3 then
                Option.map
                  (fun cs => (0x1000 * (b1 - 0xE0) + 0x40 * (b2 - 0x80) + (b3 - 0x80)) :: cs)
                  (decodeUtf8 rest3)
              else none
            else
              match rest3 with
              | [] => none
              | b4 :: rest4 =>
                if b1 < 0xF5 then
                  if secondByteOk4 b1 b2 && isCont b3 && isCont b4 then
                    Option.map
                      (fun cs =>
                        (0x40000 * (b1 - 0xF0) + 0x1000 * (b2 - 0x80) + 0x40 * (b3 - 0x80) +
                          (b4 - 0x80)) :: cs)
                      (decodeUtf8 rest4)
                  else none
                else none

/-- A Unicode scalar value: below `0x110000` and not a surrogate. -/
def ValidScalar (c : Nat) : Prop := c < 0x110000 ∧ (c < 0xD800 ∨ 0xE000 ≤ c)

instance (c : Nat) : Decidable (ValidScalar c) := by
  unfold ValidScalar; infer_instance

/-- Standard UTF-8 encoding of one Unicode scalar value. -/
def encodeChar (c : Nat) : List Nat :=
  if c < 0x80 then [c]
  else if c < 0x800 then [0xC0 + c / 0x40, 0x80 + c % 0x40]
  else if c < 0x10000 then
    [0xE0 + c / 0x1000, 0x80 + c / 0x40 % 0x40, 0x80 + c % 0x40]
  else
    [0xF0 + c / 0x40000, 0x80 + c / 0x1000 % 0x40, 0x80 + c / 0x40 % 0x40, 0x80 + c % 0x40]

/-- UTF-8 encoding of a code-point sequence. -/
def utf8Encode : List Nat → List Nat
  | [] => []
  | c :: cs => encodeChar c ++ utf8Encode cs

/-- `"\n".join(bot_says)`: the lines interleaved with code point 10. -/
def joinNL : List (List Nat) → List Nat
  | [] => []
  | [l] => l
  | l :: ls => l ++ 10 :: joinNL ls

/-- `bot_says[-1] += chars`: extend the last line with `chars`.  The line
buffer of `_parse_to_prompt` is never empty (it starts as `['']`), so the
`[]` case is unreachable; it is completed with `[chars]` for totality. -/
def appendLast : List (List Nat) → List Nat → List (List Nat)
  | [], chars => [chars]
  | [l], chars => [l ++ chars]
  | l :: ls, chars => l :: appendLast ls chars

/-- Effect of one decoded character on the line buffer of
`_parse_to_prompt`: a newline appends a fresh empty line, any other
character is appended to the last line. -/
def lineStep (lines : List (List Nat)) (c : Nat) : List (List Nat) :=
  if c = 10 then lines ++ [[]] else appendLast lines [c]

/-- Outcome of one iteration of the `while True` loop of
`_parse_to_prompt`: either the sentinel was decoded and the loop returns
(`done` carries the return value and the text echoed so far), or the loop
continues with updated line buffer, byte accumulator and echoed text. -/
inductive ReadStep where
  | done (result : List Nat) (echoed : List Nat)
  | next (lines : List (List Nat)) (point : List Nat) (echoed : List Nat)
deriving DecidableEq

/-- One iteration of the loop body of `_parse_to_prompt` on the byte `c`:
`point += c`; try `point.decode("utf-8")`; on success return at `"\f"`,
push a line at `"\n"`, otherwise extend the last line (echoing to stdout
when `write_to_stdout` is set), clearing `point`; on `UnicodeDecodeError`
keep accumulating, discarding `point` once its length exceeds 4. -/
def parseStep (echo : Bool) (lines : List (List Nat)) (point : List Nat)
    (echoed : List Nat) (c : Nat) : ReadStep :=
  match decodeUtf8 (point ++ [c]) with
  | some chars =>
    if chars = [12] then ReadStep.done (joinNL lines) echoed
    else if chars = [10] then
      ReadStep.next (lines ++ [[]]) [] (echoed ++ if echo then [10] else [])
    else
      ReadStep.next (appendLast lines chars) [] (echoed ++ if echo then chars else [])
  | none =>
    ReadStep.next lines (if 4 < (point ++ [c]).length then [] else point ++ [c]) echoed

/-- The `while True` loop of `_parse_to_prompt`, consuming the byte stream
one byte at a time.  Returns `some (result, echoed)` when the sentinel is
decoded; `none` models the Python loop never returning (the stream is
exhausted before a decoded sentinel, on which the blocking `read(1)` spins
forever). -/
def parseLoop (echo : Bool) : List (List Nat) → List Nat → List Nat → List Nat →
    Option (List Nat × List Nat)
  | _, _, _, [] => none
  | lines, point, echoed, c :: s =>
    match parseStep echo lines point echoed c with
    | ReadStep.done r o => some (r, o)
    | ReadStep.next l p o => parseLoop echo l p o s

/-- `GPT4All._parse_to_prompt(write_to_stdout)` run against the byte stream
`stream`: line buffer starts as `['']`, byte accumulator starts empty.
The first component of the result is the returned text (as code points),
the second is the text mirrored to stdout. -/
def parse_to_prompt (write_to_stdout : Bool) (stream : List Nat) :
    Option (List Nat × List Nat) :=
  parseLoop write_to_stdout [[]] [] [] stream

/-!  Session management of the `GPT4All` class (`nomic/gpt4all.py`).
`self.bot` (the `subprocess.Popen` handle, or `None`) is modelled as an
`Option Nat` carrying the process id; the side effects on the operating
system (killing and spawning processes, invoking the reader) are recorded
as an explicit action trace. -/

/-- State of a `GPT4All` object: the model name and the child-process
handle `self.bot` (`none` models Python `None`). -/
structure Session where
  model : String
  bot : Option Nat
deriving DecidableEq

/-- Observable process-management actions of a `GPT4All` session. -/
inductive ProcAction where
  | kill (pid : Nat)
  | spawn (pid : Nat)
  | readOutput (write_to_stdout : Bool)
deriving DecidableEq

/-- `GPT4All.close`: runs `self.bot.kill(); self.bot = None`.  When
`self.bot` is `None`, the attribute access `self.bot.kill` raises
`AttributeError`; otherwise the process is killed and the handle cleared. -/
def Session.close (s : Session) : Except String (Session × List ProcAction) :=
  match s.bot with
  | none => Except.error "AttributeError: NoneType object has no attribute kill"
  | some pid => Except.ok ({ s with bot := none }, [ProcAction.kill pid])

/-- `GPT4All.connect` run against the `newPid` the spawn produces and the
`banner` byte stream the fresh child writes: `if self.bot is not None:
self.close()` (which cannot raise there, since `self.bot` is not `None`),
then spawn the child and run `self._parse_to_prompt(write_to_stdout=False)`
discarding its result.  `Except.ok none` models the banner read never
returning (no sentinel in `banner`). -/
def Session.connect (s : Session) (newPid : Nat) (banner : List Nat) :
    Except String (Option (Session × List ProcAction)) :=
  match
    (match s.bot with
     | some _ => s.close
     | none => Except.ok (s, [])) with
  | Except.error e => Except.error e
  | Except.ok (s1, acts) =>
    let s2 : Session := { s1 with bot := some newPid }
    match parse_to_prompt false banner with
    | none => Except.ok none
    | some _ =>
      Except.ok (some (s2, acts ++ [ProcAction.spawn newPid, ProcAction.readOutput false]))

/-- Download actions `GPT4All.__init__` may trigger after validating the
model name. -/
inductive DownloadAction where
  | downloadExecutable
  | downloadModel
deriving DecidableEq

/-- `GPT4All.__init__(model, force_download)`: sets `self.bot = None` and
`self.model = model`, then `assert model in ['gpt4all-lora-quantized',
'gpt4all-lora-unfiltered-quantized']` — any other name raises
`AssertionError` before the executable/model paths are computed or any
download is attempted.  `executable_exists` models
`self.executable_path.exists()` and `model_file_nonempty` models
`self.model_path.exists() and self.model_path.stat().st_size > 0`. -/
def GPT4All_init (model : String) (force_download : Bool)
    (executable_exists : Bool) (model_file_nonempty : Bool) :
    Except String (Session × List DownloadAction) :=
  if model = "gpt4all-lora-quantized" ∨ model = "gpt4all-lora-unfiltered-quantized" then
    Except.ok ({ model := model, bot := none },
      (if force_download || !executable_exists then [DownloadAction.downloadExecutable] else []) ++
      (if force_download || !model_file_nonempty then [DownloadAction.downloadModel] else []))
  else
    Except.error "AssertionError"

/-!  Embedding of `nomic/aws/sagemaker.py`.  The huggingface tokenizer is
an external collaborator and is modelled as a function `String → List Nat`
from text to token ids; `load_tokenizer` (which reads a tokenizer file from
disk) is likewise passed in as a function from model to tokenizer.  Python
exceptions are modelled with `Except`. -/

/-- `NULL_PLACEHOLDER = hashlib.md5(b"nomic null").hexdigest()` (the hash
is computed by the external `hashlib` collaborator; its value is fixed). -/
def NULL_PLACEHOLDER : String := "2f865186b9e9d2d6e0aec1690159e139"

/-- `EMPTY_PLACEHOLDER = hashlib.md5(b"nomic empty").hexdigest()` (the hash
is computed by the external `hashlib` collaborator; its value is fixed). -/
def EMPTY_PLACEHOLDER : String := "24df574ea1c998de59d5be15e769658e"

/-- The `NomicTextEmbeddingModel` enum (single member). -/
inductive NomicTextEmbeddingModel where
  | nomic_embed_text_v1_5
deriving DecidableEq

/-- `null_empty_placeholder`: replace `None` or blank text with the fixed
placeholder strings (`text.strip()` is modelled by `String.trim`). -/
def null_empty_placeholder (text : Option String) : String :=
  match text with
  | none => NULL_PLACEHOLDER
  | some t => if t.trim = "" then EMPTY_PLACEHOLDER else t

/-- `tokenize_text(text, tokenizer, model)`.  `load` models
`load_tokenizer`.  With neither tokenizer nor model a `ValueError` is
raised.  Otherwise the text is encoded; a zero-token result triggers
`tokenize_text(EMPTY_PLACEHOLDER, add_special_tokens=False).ids` — a
recursive call passing NEITHER a tokenizer NOR a model, which raises the
`ValueError`; were a token list ever returned there, the `.ids` attribute
access on the plain Python list would raise `AttributeError`. -/
def tokenize_text (load : NomicTextEmbeddingModel → String → List Nat) (text : String) :
    Option (String → List Nat) → Option NomicTextEmbeddingModel → Except String (List Nat)
  | none, none => Except.error "ValueError: Either tokenizer or model must be provided"
  | none, some m =>
    let all_tokens := load m text
    if all_tokens.length = 0 then
      match tokenize_text load EMPTY_PLACEHOLDER none none with
      | Except.error e => Except.error e
      | Except.ok _ => Except.error "AttributeError: list object has no attribute ids"
    else Except.ok all_tokens
  | some tokenizer, _ =>
    let all_tokens := tokenizer text
    if all_tokens.length = 0 then
      match tokenize_text load EMPTY_PLACEHOLDER none none with
      | Except.error e => Except.error e
      | Except.ok _ => Except.error "AttributeError: list object has no attribute ids"
    else Except.ok all_tokens
termination_by tokenizer model =>
  (match tokenizer, model with | none, none => 0 | _, _ => 1)
decreasing_by all_goals decide

/-- The `for text in texts: all_tokens.append(tokenize_text(text,
tokenizer=tokenizer))` loop of `create_sm_request_for_batch`; the first
exception aborts the loop and propagates. -/
def mapTokenize (load : NomicTextEmbeddingModel → String → List Nat)
    (tokenizer : String → List Nat) : List String → Except String (List (List Nat))
  | [] => Except.ok []
  | t :: ts =>
    match tokenize_text load t (some tokenizer) none with
    | Except.error e => Except.error e
    | Except.ok toks =>
      match mapTokenize load tokenizer ts with
      | Except.error e => Except.error e
      | Except.ok rest => Except.ok (toks :: rest)

/-- `np.array(rows, dtype=np.int32)` on a list of lists of ints: a
rectangular input yields the matrix with its shape `[nrows, ncols]`; a
ragged input raises `ValueError` (an inhomogeneous shape cannot be coerced
to an `int32` array). -/
def npArray2DInt32 (rows : List (List Nat)) :
    Except String (List (List Nat) × List Nat) :=
  match rows with
  | [] => Except.ok ([], [0])
  | r :: rs =>
    if rs.all (fun row => row.length = r.length) then
      Except.ok (rows, [rows.length, r.length])
    else
      Except.error "ValueError: setting an array element with a sequence"

/-- One Triton `InferInput` of `create_sm_request_for_batch`: the tensor
name, the DECLARED shape passed to the `InferInput` constructor, and the
data set from the numpy array. -/
structure InferInput where
  name : String
  shape : List Nat
  data : List (List Nat)
deriving DecidableEq

/-- `create_sm_request_for_batch(texts, tokenizer)`: tokenize every text,
build `input_ids = np.array(all_tokens, dtype=np.int32)`, compute `mlen =
max(len(tokens) ...)` (a `ValueError` on an empty batch), build the
attention mask rows `[1]*len(tokens) + [0]*(mlen - len(tokens))`, and
declare the two `InferInput`s — the source passes `input_ids.shape` for
BOTH tensors (line 152). -/
def create_sm_request_for_batch (load : NomicTextEmbeddingModel → String → List Nat)
    (texts : List String) (tokenizer : String → List Nat) :
    Except String (List InferInput) :=
  match mapTokenize load tokenizer texts with
  | Except.error e => Except.error e
  | Except.ok all_tokens =>
    match npArray2DInt32 all_tokens with
    | Except.error e => Except.error e
    | Except.ok (input_ids, idsShape) =>
      match all_tokens with
      | [] => Except.error "ValueError: max() arg is an empty sequence"
      | t0 :: trest =>
        let mlen := (trest.map List.length).foldl max t0.length
        let attention_mask := all_tokens.map
          (fun tokens =>
            List.replicate tokens.length 1 ++ List.replicate (mlen - tokens.length) 0)
        match npArray2DInt32 attention_mask with
        | Except.error e => Except.error e
        | Except.ok (mask, _) =>
          Except.ok [{ name := "input_ids", shape := idsShape, data := input_ids },
                     { name := "attention_mask", shape := idsShape, data := mask }]

/-!  Lemmas about the UTF-8 decoder. -/

theorem decodeUtf8_ascii (b : Nat) (h : b < 0x80) (l : List Nat) :
    decodeUtf8 (b :: l) = Option.map (fun cs => b :: cs) (decodeUtf8 l) := by
  rw [decodeUtf8.eq_def]
  simp [h]

theorem decodeUtf8_contLead (b : Nat) (h1 : 0x80 ≤ b) (h2 : b < 0xC2) (l : List Nat) :
    decodeUtf8 (b :: l) = none := by
  rw [decodeUtf8.eq_def]
  simp [show ¬ b < 0x80 by omega, h2]

theorem decodeUtf8_one_incomplete (b : Nat) (h1 : 0xC2 ≤ b) (h2 : b < 0xF5) :
    decodeUtf8 [b] = none := by
  rw [decodeUtf8.eq_def]
  simp [show ¬ b < 0x80 by omega, show ¬ b < 0xC2 by omega]

theorem decodeUtf8_two_incomplete (b b2 : Nat) (h1 : 0xE0 ≤ b) (h2 : b < 0xF5) :
    decodeUtf8 [b, b2] = none := by
  rw [decodeUtf8.eq_def]
  simp [show ¬ b < 0x80 by omega, show ¬ b < 0xC2 by omega, show ¬ b < 0xE0 by omega]

theorem decodeUtf8_three_incomplete (b b2 b3 : Nat) (h1 : 0xF0 ≤ b) (h2 : b < 0xF5) :
    decodeUtf8 [b, b2, b3] = none := by
  rw [decodeUtf8.eq_def]
  simp [show ¬ b < 0x80 by omega, show ¬ b < 0xC2 by omega, show ¬ b < 0xE0 by omega,
    show ¬ b < 0xF0 by omega]

theorem decodeUtf8_two (b1 b2 : Nat) (h1 : 0xC2 ≤ b1) (h2 : b1 < 0xE0)
    (hc : isCont b2 = true) (l : List Nat) :
    decodeUtf8 (b1 :: b2 :: l) =
      Option.map (fun cs => (0x40 * (b1 - 0xC0) + (b2 - 0x80)) :: cs) (decodeUtf8 l) := by
  rw [decodeUtf8.eq_def]
  simp [show ¬ b1 < 0x80 by omega, show ¬ b1 < 0xC2 by omega, h2, hc]

theorem decodeUtf8_three (b1 b2 b3 : Nat) (h1 : 0xE0 ≤ b1) (h2 : b1 < 0xF0)
    (hc2 : secondByteOk3 b1 b2 = true) (hc3 : isCont b3 = true) (l : List Nat) :
    decodeUtf8 (b1 :: b2 :: b3 :: l) =
      Option.map (fun cs => (0x1000 * (b1 - 0xE0) + 0x40 * (b2 - 0x80) + (b3 - 0x80)) :: cs)
        (decodeUtf8 l) := by
  rw [decodeUtf8.eq_def]
  simp [show ¬ b1 < 0x80 by omega, show ¬ b1 < 0xC2 by omega, show ¬ b1 < 0xE0 by omega,
    h2, hc2, hc3]

theorem decodeUtf8_four (b1 b2 b3 b4 : Nat) (h1 : 0xF0 ≤ b1) (h2 : b1 < 0xF5)
    (hc2 : secondByteOk4 b1 b2 = true) (hc3 : isCont b3 = true) (hc4 : isCont b4 = true)
    (l : List Nat) :
    decodeUtf8 (b1 :: b2 :: b3 :: b4 :: l) =
      Option.map
        (fun cs =>
          (0x40000 * (b1 - 0xF0) + 0x1000 * (b2 - 0x80) + 0x40 * (b3 - 0x80) + (b4 - 0x80)) :: cs)
        (decodeUtf8 l) := by
  rw [decodeUtf8.eq_def]
  simp [show ¬ b1 < 0x80 by omega, show ¬ b1 < 0xC2 by omega, show ¬ b1 < 0xE0 by omega,
    show ¬ b1 < 0xF0 by omega, h2, hc2, hc3, hc4]

/-!  Single-step lemmas for the reader loop. -/

theorem parseLoop_cons (echo : Bool) (lines : List (List Nat)) (point echoed : List Nat)
    (c : Nat) (s : List Nat) :
    parseLoop echo lines point echoed (c :: s) =
      match parseStep echo lines point echoed c with
      | ReadStep.done r o => some (r, o)
      | ReadStep.next l p o => parseLoop echo l p o s := rfl

theorem parseStep_fail_keep (echo : Bool) (lines : List (List Nat)) (point echoed : List Nat)
    (c : Nat) (hd : decodeUtf8 (point ++ [c]) = none)
    (hl : (point ++ [c]).length ≤ 4) :
    parseStep echo lines point echoed c = ReadStep.next lines (point ++ [c]) echoed := by
  simp only [List.length_append, List.length_cons, List.length_nil] at hl
  simp [parseStep, hd]
  omega

theorem parseStep_fail_drop (echo : Bool) (lines : List (List Nat)) (point echoed : List Nat)
    (c : Nat) (hd : decodeUtf8 (point ++ [c]) = none)
    (hl : 4 < (point ++ [c]).length) :
    parseStep echo lines point echoed c = ReadStep.next lines [] echoed := by
  simp only [List.length_append, List.length_cons, List.length_nil] at hl
  simp [parseStep, hd]
  omega

theorem parseStep_sentinel (echo : Bool) (lines : List (List Nat)) (point echoed : List Nat)
    (c : Nat) (hd : decodeUtf8 (point ++ [c]) = some [12]) :
    parseStep echo lines point echoed c = ReadStep.done (joinNL lines) echoed := by
  simp [parseStep, hd]

theorem parseStep_char (echo : Bool) (lines : List (List Nat)) (point echoed : List Nat)
    (c ch : Nat) (hd : decodeUtf8 (point ++ [c]) = some [ch]) (h12 : ch ≠ 12) :
    parseStep echo lines point echoed c =
      ReadStep.next (lineStep lines ch) [] (echoed ++ if echo then [ch] else []) := by
  by_cases h10 : ch = 10
  · subst h10
    simp [parseStep, hd, lineStep]
  · simp [parseStep, hd, lineStep, h10, h12]

theorem parseLoop_step_next (echo : Bool) (lines l : List (List Nat))
    (point echoed p o : List Nat) (c : Nat) (s : List Nat)
    (h : parseStep echo lines point echoed c = ReadStep.next l p o) :
    parseLoop echo lines point echoed (c :: s) = parseLoop echo l p o s := by
  rw [parseLoop_cons, h]

theorem parseLoop_step_done (echo : Bool) (lines : List (List Nat))
    (point echoed r o : List Nat) (c : Nat) (s : List Nat)
    (h : parseStep echo lines point echoed c = ReadStep.done r o) :
    parseLoop echo lines point echoed (c :: s) = some (r, o) := by
  rw [parseLoop_cons, h]

theorem parseLoop_char (echo : Bool) (lines : List (List Nat)) (out : List Nat)
    (c : Nat) (hv : ValidScalar c) (h12 : c ≠ 12) (s : List Nat) :
    parseLoop echo lines [] out (encodeChar c ++ s) =
      parseLoop echo (lineStep lines c) [] (out ++ if echo then [c] else []) s := by
  obtain ⟨hmax, hsur⟩ := hv
  by_cases h1 : c < 0x80
  · have henc : encodeChar c = [c] := by simp [encodeChar, h1]
    have hd : decodeUtf8 (([] : List Nat) ++ [c]) = some [c] := by
      rw [List.nil_append, decodeUtf8_ascii c h1 []]
      rfl
    rw [henc, List.singleton_append,
      parseLoop_step_next echo lines (lineStep lines c) [] out []
        (out ++ if echo then [c] else []) c s
        (parseStep_char echo lines [] out c c hd h12)]
  · by_cases h2 : c < 0x800
    · have henc : encodeChar c = [0xC0 + c / 0x40, 0x80 + c % 0x40] := by
        simp [encodeChar, h1, h2]
      have hd1 : decodeUtf8 (([] : List Nat) ++ [0xC0 + c / 0x40]) = none := by
        rw [List.nil_append]
        exact decodeUtf8_one_incomplete _ (by omega) (by omega)
      have hd2 : decodeUtf8 ([0xC0 + c / 0x40] ++ [0x80 + c % 0x40]) = some [c] := by
        show decodeUtf8 ((0xC0 + c / 0x40) :: (0x80 + c % 0x40) :: []) = some [c]
        rw [decodeUtf8_two _ _ (by omega) (by omega) (by simp [isCont]; omega) []]
        simp [decodeUtf8]
        omega
      rw [henc]
      simp only [List.cons_append, List.nil_append]
      rw [parseLoop_step_next echo lines lines [] out ([] ++ [0xC0 + c / 0x40]) out
        (0xC0 + c / 0x40) _ (parseStep_fail_keep echo lines [] out _ hd1 (by simp))]
      simp only [List.nil_append]
      rw [parseLoop_step_next echo lines (lineStep lines c) [0xC0 + c / 0x40] out []
        (out ++ if echo then [c] else []) (0x80 + c % 0x40) s
        (parseStep_char echo lines [0xC0 + c / 0x40] out _ c hd2 h12)]
    · by_cases h3 : c < 0x10000
      · have henc : encodeChar c =
            [0xE0 + c / 0x1000, 0x80 + c / 0x40 % 0x40, 0x80 + c % 0x40] := by
          simp [encodeChar, h1, h2, h3]
        have hd1 : decodeUtf8 (([] : List Nat) ++ [0xE0 + c / 0x1000]) = none := by
          rw [List.nil_append]
          exact decodeUtf8_one_incomplete _ (by omega) (by omega)
        have hd2 : decodeUtf8 ([0xE0 + c / 0x1000] ++ [0x80 + c / 0x40 % 0x40]) = none := by
          show decodeUtf8 [0xE0 + c / 0x1000, 0x80 + c / 0x40 % 0x40] = none
          exact decodeUtf8_two_incomplete _ _ (by omega) (by omega)
        have hok : secondByteOk3 (0xE0 + c / 0x1000) (0x80 + c / 0x40 % 0x40) = true := by
          unfold secondByteOk3 isCont
          split_ifs with hE0 hED <;> simp only [Bool.and_eq_true, decide_eq_true_eq] <;> omega
        have hd3 : decodeUtf8 ([0xE0 + c / 0x1000, 0x80 + c / 0x40 % 0x40] ++ [0x80 + c % 0x40]) =
            some [c] := by
          show decodeUtf8
            ((0xE0 + c / 0x1000) :: (0x80 + c / 0x40 % 0x40) :: (0x80 + c % 0x40) :: []) = some [c]
          rw [decodeUtf8_three _ _ _ (by omega) (by omega) hok (by simp [isCont]; omega) []]
          simp [decodeUtf8]
          omega
        rw [henc]
        simp only [List.cons_append, List.nil_append]
        rw [parseLoop_step_next echo lines lines [] out ([] ++ [0xE0 + c / 0x1000]) out
          (0xE0 + c / 0x1000) _ (parseStep_fail_keep echo lines [] out _ hd1 (by simp))]
        simp only [List.nil_append]
        rw [parseLoop_step_next echo lines lines [0xE0 + c / 0x1000] out
          ([0xE0 + c / 0x1000] ++ [0x80 + c / 0x40 % 0x40]) out
          (0x80 + c / 0x40 % 0x40) _
          (parseStep_fail_keep echo lines [0xE0 + c / 0x1000] out _ hd2 (by simp))]
        simp only [List.singleton_append]
        rw [parseLoop_step_next echo lines (lineStep lines c)
          [0xE0 + c / 0x1000, 0x80 + c / 0x40 % 0x40] out []
          (out ++ if echo then [c] else []) (0x80 + c % 0x40) s
          (parseStep_char echo lines [0xE0 + c / 0x1000, 0x80 + c / 0x40 % 0x40] out _ c hd3 h12)]
      · have henc : encodeChar c =
            [0xF0 + c / 0x40000, 0x80 + c / 0x1000 % 0x40, 0x80 + c / 0x40 % 0x40,
              0x80 + c % 0x40] := by
          simp [encodeChar, h1, h2, h3]
        have hd1 : decodeUtf8 (([] : List Nat) ++ [0xF0 + c / 0x40000]) = none := by
          rw [List.nil_append]
          exact decodeUtf8_one_incomplete _ (by omega) (by omega)
        have hd2 : decodeUtf8 ([0xF0 + c / 0x40000] ++ [0x80 + c / 0x1000 % 0x40]) = none := by
          show decodeUtf8 [0xF0 + c / 0x40000, 0x80 + c / 0x1000 % 0x40] = none
          exact decodeUtf8_two_incomplete _ _ (by omega) (by omega)
        have hd3 : decodeUtf8
            ([0xF0 + c / 0x40000, 0x80 + c / 0x1000 % 0x40] ++ [0x80 + c / 0x40 % 0x40]) =
            none := by
          show decodeUtf8
            [0xF0 + c / 0x40000, 0x80 + c / 0x1000 % 0x40, 0x80 + c / 0x40 % 0x40] = none
          exact decodeUtf8_three_incomplete _ _ _ (by omega) (by omega)
        have hok : secondByteOk4 (0xF0 + c / 0x40000) (0x80 + c / 0x1000 % 0x40) = true := by
          unfold secondByteOk4 isCont
          split_ifs with hF0 hF4 <;> simp only [Bool.and_eq_true, decide_eq_true_eq] <;> omega
        have hd4 : decodeUtf8
            ([0xF0 + c / 0x40000, 0x80 + c / 0x1000 % 0x40, 0x80 + c / 0x40 % 0x40] ++
              [0x80 + c % 0x40]) = some [c] := by
          show decodeUtf8
            ((0xF0 + c / 0x40000) :: (0x80 + c / 0x1000 % 0x40) :: (0x80 + c / 0x40 % 0x40) ::
              (0x80 + c % 0x40) :: []) = some [c]
          rw [decodeUtf8_four _ _ _ _ (by omega) (by omega) hok (by simp [isCont]; omega)
            (by simp [isCont]; omega) []]
          simp [decodeUtf8]
          omega
        rw [henc]
        simp only [List.cons_append, List.nil_append]
        rw [parseLoop_step_next echo lines lines [] out ([] ++ [0xF0 + c / 0x40000]) out
          (0xF0 + c / 0x40000) _ (parseStep_fail_keep echo lines [] out _ hd1 (by simp))]
        simp only [List.nil_append]
        rw [parseLoop_step_next echo lines lines [0xF0 + c / 0x40000] out
          ([0xF0 + c / 0x40000] ++ [0x80 + c / 0x1000 % 0x40]) out
          (0x80 + c / 0x1000 % 0x40) _
          (parseStep_fail_keep echo lines [0xF0 + c / 0x40000] out _ hd2 (by simp))]
        simp only [List.singleton_append]
        rw [parseLoop_step_next echo lines lines
          [0xF0 + c / 0x40000, 0x80 + c / 0x1000 % 0x40] out
          ([0xF0 + c / 0x40000, 0x80 + c / 0x1000 % 0x40] ++ [0x80 + c / 0x40 % 0x40]) out
          (0x80 + c / 0x40 % 0x40) _
          (parseStep_fail_keep echo lines [0xF0 + c / 0x40000, 0x80 + c / 0x1000 % 0x40] out _
            hd3 (by simp))]
        have happ : ([0xF0 + c / 0x40000, 0x80 + c / 0x1000 % 0x40] ++ [0x80 + c / 0x40 % 0x40]) =
            [0xF0 + c / 0x40000, 0x80 + c / 0x1000 % 0x40, 0x80 + c / 0x40 % 0x40] := rfl
        rw [happ]
        rw [parseLoop_step_next echo lines (lineStep lines c)
          [0xF0 + c / 0x40000, 0x80 + c / 0x1000 % 0x40, 0x80 + c / 0x40 % 0x40] out []
          (out ++ if echo then [c] else []) (0x80 + c % 0x40) s
          (parseStep_char echo lines
            [0xF0 + c / 0x40000, 0x80 + c / 0x1000 % 0x40, 0x80 + c / 0x40 % 0x40] out _ c
            hd4 h12)]

theorem appendLast_cons (x : List Nat) (xs : List (List Nat)) (cs : List Nat) :
    ∃ y ys, appendLast (x :: xs) cs = y :: ys := by
  cases xs <;> simp [appendLast]

theorem joinNL_push (l : List Nat) (ls : List (List Nat)) :
    joinNL ((l :: ls) ++ [[]]) = joinNL (l :: ls) ++ [10] := by
  induction ls generalizing l with
  | nil => simp [joinNL]
  | cons l2 ls2 ih =>
    have ih2 := ih l2
    simp only [List.cons_append] at ih2
    simp only [List.cons_append, joinNL, List.append_eq]
    rw [ih2]
    simp [List.append_assoc]

theorem joinNL_appendLast (l : List Nat) (ls : List (List Nat)) (cs : List Nat) :
    joinNL (appendLast (l :: ls) cs) = joinNL (l :: ls) ++ cs := by
  induction ls generalizing l with
  | nil => simp [appendLast, joinNL]
  | cons l2 ls2 ih =>
    have ih2 := ih l2
    obtain ⟨y, ys, hy⟩ := appendLast_cons l2 ls2 cs
    simp only [appendLast, joinNL]
    rw [hy] at ih2 ⊢
    simp only [joinNL]
    rw [ih2]
    simp [List.append_assoc]

theorem joinNL_lineStep (l : List Nat) (ls : List (List Nat)) (c : Nat) :
    joinNL (lineStep (l :: ls) c) = joinNL (l :: ls) ++ [c] := by
  unfold lineStep
  split_ifs with h
  · subst h
    exact joinNL_push l ls
  · exact joinNL_appendLast l ls [c]

theorem lineStep_cons (l : List Nat) (ls : List (List Nat)) (c : Nat) :
    ∃ y ys, lineStep (l :: ls) c = y :: ys := by
  unfold lineStep
  split_ifs with h
  · exact ⟨l, ls ++ [[]], by simp⟩
  · exact appendLast_cons l ls [c]

theorem joinNL_foldl (text : List Nat) :
    ∀ (l : List Nat) (ls : List (List Nat)),
      joinNL (List.foldl lineStep (l :: ls) text) = joinNL (l :: ls) ++ text := by
  induction text with
  | nil => intro l ls; simp
  | cons c cs ih =>
    intro l ls
    simp only [List.foldl_cons]
    obtain ⟨y, ys, hy⟩ := lineStep_cons l ls c
    rw [hy, ih y ys, ← hy, joinNL_lineStep]
    simp [List.append_assoc]

theorem parseLoop_run (text : List Nat) (h : ∀ c ∈ text, ValidScalar c ∧ c ≠ 12) :
    ∀ (lines : List (List Nat)) (out : List Nat),
      parseLoop false lines [] out (utf8Encode text ++ [12]) =
        some (joinNL (List.foldl lineStep lines text), out) := by
  induction text with
  | nil =>
    intro lines out
    have hd : decodeUtf8 (([] : List Nat) ++ [12]) = some [12] := by
      rw [List.nil_append, decodeUtf8_ascii 12 (by omega) []]
      rfl
    simpa [utf8Encode] using parseLoop_step_done false lines [] out (joinNL lines) out 12 []
      (parseStep_sentinel false lines [] out 12 hd)
  | cons c cs ih =>
    intro lines out
    have hc := h c (by simp)
    have hrest : ∀ x ∈ cs, ValidScalar x ∧ x ≠ 12 := fun x hx => h x (by simp [hx])
    show parseLoop false lines [] out ((encodeChar c ++ utf8Encode cs) ++ [12]) = _
    rw [List.append_assoc, parseLoop_char false lines out c hc.1 hc.2 (utf8Encode cs ++ [12])]
    simp only [Bool.false_eq_true, if_false, List.append_nil]
    rw [ih hrest (lineStep lines c) out]
    simp [List.foldl_cons]

/-- C1: for every byte stream that is valid UTF-8 and contains the sentinel
form-feed byte exactly once, at its end, `_parse_to_prompt` with echo
disabled, consuming the stream one byte at a time, returns exactly the text
preceding the sentinel with newlines preserved as line separators; in
particular a multi-byte UTF-8 character delivered across multiple
single-byte reads is reconstructed correctly. -/
theorem C1_reader_exact_text (text : List Nat)
    (h : ∀ c ∈ text, ValidScalar c ∧ c ≠ 12) :
    parse_to_prompt false (utf8Encode text ++ [12]) = some (text, []) := by
  unfold parse_to_prompt
  rw [parseLoop_run text h [[]] []]
  rw [show ([[]] : List (List Nat)) = [] :: [] from rfl, joinNL_foldl text [] []]
  simp [joinNL]

/-- Witness for C1: the text `h€\nB` (with the 3-byte Euro sign delivered
over three single-byte reads) is returned exactly. -/
theorem C1_reader_exact_text_witness :
    (∀ c ∈ [104, 8364, 10, 66], ValidScalar c ∧ c ≠ 12) ∧
      parse_to_prompt false (utf8Encode [104, 8364, 10, 66] ++ [12]) =
        some ([104, 8364, 10, 66], []) :=
  ⟨by decide, C1_reader_exact_text [104, 8364, 10, 66] (by decide)⟩

theorem parseStep_decoded (echo : Bool) (lines : List (List Nat)) (point out : List Nat)
    (c : Nat) (chars : List Nat) (hd : decodeUtf8 (point ++ [c]) = some chars)
    (h12 : chars ≠ [12]) :
    parseStep echo lines point out c =
      if chars = [10] then ReadStep.next (lines ++ [[]]) [] (out ++ if echo then [10] else [])
      else ReadStep.next (appendLast lines chars) [] (out ++ if echo then chars else []) := by
  unfold parseStep
  rw [hd]
  simp [h12]

/-- C5: throughout every execution of the reader the byte accumulator is
bounded: from any iteration whose accumulator holds at most 4 bytes, the
next iteration's accumulator again holds at most 4 bytes (it is reset to
empty after each successful decode and discarded once it would exceed 4
bytes); `parse_to_prompt` starts the loop with the empty accumulator, so
the bound holds at the start of every byte-read iteration. -/
theorem C5_accumulator_bounded (echo : Bool) (lines l : List (List Nat))
    (point out p o : List Nat) (c : Nat) (hlen : point.length ≤ 4)
    (hstep : parseStep echo lines point out c = ReadStep.next l p o) :
    p.length ≤ 4 ∧ ∀ chars, decodeUtf8 (point ++ [c]) = some chars → p = [] := by
  cases hdec : decodeUtf8 (point ++ [c]) with
  | some chars =>
    by_cases h12 : chars = [12]
    · subst h12
      rw [parseStep_sentinel echo lines point out c hdec] at hstep
      exact absurd hstep (by simp)
    · rw [parseStep_decoded echo lines point out c chars hdec h12] at hstep
      by_cases h10 : chars = [10]
      · rw [if_pos h10] at hstep
        simp only [ReadStep.next.injEq] at hstep
        obtain ⟨-, hp, -⟩ := hstep
        subst hp
        exact ⟨by simp, fun _ _ => rfl⟩
      · rw [if_neg h10] at hstep
        simp only [ReadStep.next.injEq] at hstep
        obtain ⟨-, hp, -⟩ := hstep
        subst hp
        exact ⟨by simp, fun _ _ => rfl⟩
  | none =>
    by_cases hbig : 4 < (point ++ [c]).length
    · rw [parseStep_fail_drop echo lines point out c hdec hbig] at hstep
      simp only [ReadStep.next.injEq] at hstep
      obtain ⟨-, hp, -⟩ := hstep
      subst hp
      refine ⟨by simp, fun chars hchars => ?_⟩
      exact absurd hchars (by simp)
    · rw [parseStep_fail_keep echo lines point out c hdec (by omega)] at hstep
      simp only [ReadStep.next.injEq] at hstep
      obtain ⟨-, hp, -⟩ := hstep
      subst hp
      refine ⟨?_, fun chars hchars => ?_⟩
      · simp only [List.length_append, List.length_cons, List.length_nil] at hbig ⊢
        omega
      · exact absurd hchars (by simp)

/-- Witness for C5: a full 4-byte accumulator of continuation bytes is
discarded on the fifth garbage byte. -/
theorem C5_accumulator_bounded_witness :
    ([128, 128, 128, 128] : List Nat).length ≤ 4 ∧
      (([] : List Nat).length ≤ 4 ∧
        ∀ chars, decodeUtf8 ([128, 128, 128, 128] ++ [128]) = some chars →
          ([] : List Nat) = []) :=
  ⟨by decide,
    C5_accumulator_bounded false [[]] [[]] [128, 128, 128, 128] [] [] [] 128 (by decide) (by decide)⟩

theorem parseLoop_echo_fst (s : List Nat) :
    ∀ (e1 e2 : Bool) (lines : List (List Nat)) (point out1 out2 : List Nat),
      Option.map Prod.fst (parseLoop e1 lines point out1 s) =
        Option.map Prod.fst (parseLoop e2 lines point out2 s) := by
  induction s with
  | nil => intro e1 e2 lines point out1 out2; rfl
  | cons c s2 ih =>
    intro e1 e2 lines point out1 out2
    cases hdec : decodeUtf8 (point ++ [c]) with
    | none =>
      have hstep : ∀ e out, parseStep e lines point out c =
          ReadStep.next lines (if 4 < (point ++ [c]).length then [] else point ++ [c]) out :=
        fun e out => by unfold parseStep; rw [hdec]
      rw [parseLoop_cons, parseLoop_cons, hstep e1 out1, hstep e2 out2]
      exact ih e1 e2 lines _ out1 out2
    | some chars =>
      by_cases h12 : chars = [12]
      · subst h12
        have hstep : ∀ e out, parseStep e lines point out c =
            ReadStep.done (joinNL lines) out :=
          fun e out => parseStep_sentinel e lines point out c hdec
        rw [parseLoop_cons, parseLoop_cons, hstep e1 out1, hstep e2 out2]
        rfl
      · by_cases h10 : chars = [10]
        · subst h10
          have hstep : ∀ e out, parseStep e lines point out c =
              ReadStep.next (lines ++ [[]]) [] (out ++ if e then [10] else []) :=
            fun e out => by unfold parseStep; rw [hdec]; simp
          rw [parseLoop_cons, parseLoop_cons, hstep e1 out1, hstep e2 out2]
          exact ih e1 e2 _ _ _ _
        · have hstep : ∀ e out, parseStep e lines point out c =
              ReadStep.next (appendLast lines chars) [] (out ++ if e then chars else []) :=
            fun e out => by unfold parseStep; rw [hdec]; simp [h12, h10]
          rw [parseLoop_cons, parseLoop_cons, hstep e1 out1, hstep e2 out2]
          exact ih e1 e2 _ _ _ _

/-- C9: for every input byte stream the text returned by the reader is
identical whether `write_to_stdout` is enabled or disabled: the flag only
controls the mirrored output (second component), never the returned text
(first component). -/
theorem C9_echo_flag_does_not_affect_result (stream : List Nat) :
    Option.map Prod.fst (parse_to_prompt true stream) =
      Option.map Prod.fst (parse_to_prompt false stream) :=
  parseLoop_echo_fst stream true false [[]] [] [] []

/-- C6: the input bytes `h`, `i`, newline, form-feed with echo disabled
yield the returned text `"hi\n"`: the line buffer ends as the two lines
`["hi", ""]` and the result is their newline-join. -/
theorem C6_example_hi_newline_sentinel :
    parse_to_prompt false [104, 105, 10, 12] = some ([104, 105, 10], []) ∧
      List.foldl lineStep [[]] [104, 105, 10] = [[104, 105], []] ∧
      joinNL [[104, 105], []] = [104, 105, 10] ∧
      parseLoop false [[104, 105], []] [] [] [12] = some ([104, 105, 10], []) := by
  decide

/-- C2 counterexample: six consecutive non-decodable continuation bytes
followed by the valid text `"abcdef"` and the sentinel do NOT make the
valid text appear in the result: the accumulator is cleared after the
fifth garbage byte, the sixth garbage byte then swallows `a`, `b`, `c`,
`d` into the accumulator before it is cleared again, and only `"ef"` is
returned — `a` (97) does not occur in the returned text at all. -/
theorem C2_counterexample_garbage_six :
    parse_to_prompt false
        ([0x80, 0x80, 0x80, 0x80, 0x80, 0x80] ++ utf8Encode [97, 98, 99, 100, 101, 102] ++ [12]) =
      some ([101, 102], []) ∧ (97 : Nat) ∉ ([101, 102] : List Nat) := by
  decide

/-- C2 amended: for a byte stream of 5 consecutive non-decodable bytes
(continuation bytes `0x80..0xBF`, i.e. just enough for the accumulator to
exceed 4 bytes and be discarded exactly at the garbage boundary) followed
by valid sentinel-free UTF-8 text and the sentinel, the reader discards the
garbage without raising and returns exactly the subsequent valid text. -/
theorem C2_garbage_discarded_amended (b1 b2 b3 b4 b5 : Nat)
    (hb1 : 0x80 ≤ b1 ∧ b1 < 0xC0) (hb2 : 0x80 ≤ b2 ∧ b2 < 0xC0)
    (hb3 : 0x80 ≤ b3 ∧ b3 < 0xC0) (hb4 : 0x80 ≤ b4 ∧ b4 < 0xC0)
    (hb5 : 0x80 ≤ b5 ∧ b5 < 0xC0)
    (text : List Nat) (ht : ∀ c ∈ text, ValidScalar c ∧ c ≠ 12) :
    parse_to_prompt false ([b1, b2, b3, b4, b5] ++ (utf8Encode text ++ [12])) =
      some (text, []) := by
  unfold parse_to_prompt
  have hd1 : decodeUtf8 (([] : List Nat) ++ [b1]) = none := by
    rw [List.nil_append]
    exact decodeUtf8_contLead b1 hb1.1 (by omega) []
  have hd2 : decodeUtf8 ([b1] ++ [b2]) = none :=
    decodeUtf8_contLead b1 hb1.1 (by omega) [b2]
  have hd3 : decodeUtf8 ([b1, b2] ++ [b3]) = none :=
    decodeUtf8_contLead b1 hb1.1 (by omega) [b2, b3]
  have hd4 : decodeUtf8 ([b1, b2, b3] ++ [b4]) = none :=
    decodeUtf8_contLead b1 hb1.1 (by omega) [b2, b3, b4]
  have hd5 : decodeUtf8 ([b1, b2, b3, b4] ++ [b5]) = none :=
    decodeUtf8_contLead b1 hb1.1 (by omega) [b2, b3, b4, b5]
  simp only [List.cons_append, List.nil_append]
  rw [parseLoop_step_next false [[]] [[]] [] [] ([] ++ [b1]) [] b1 _
    (parseStep_fail_keep false [[]] [] [] b1 hd1 (by simp))]
  simp only [List.nil_append]
  rw [parseLoop_step_next false [[]] [[]] [b1] [] ([b1] ++ [b2]) [] b2 _
    (parseStep_fail_keep false [[]] [b1] [] b2 hd2 (by simp))]
  simp only [List.singleton_append]
  rw [parseLoop_step_next false [[]] [[]] [b1, b2] [] ([b1, b2] ++ [b3]) [] b3 _
    (parseStep_fail_keep false [[]] [b1, b2] [] b3 hd3 (by simp))]
  rw [show ([b1, b2] ++ [b3]) = [b1, b2, b3] from rfl]
  rw [parseLoop_step_next false [[]] [[]] [b1, b2, b3] [] ([b1, b2, b3] ++ [b4]) [] b4 _
    (parseStep_fail_keep false [[]] [b1, b2, b3] [] b4 hd4 (by simp))]
  rw [show ([b1, b2, b3] ++ [b4]) = [b1, b2, b3, b4] from rfl]
  rw [parseLoop_step_next false [[]] [[]] [b1, b2, b3, b4] [] [] [] b5 _
    (parseStep_fail_drop false [[]] [b1, b2, b3, b4] [] b5 hd5 (by simp))]
  rw [parseLoop_run text ht [[]] []]
  rw [show ([[]] : List (List Nat)) = [] :: [] from rfl, joinNL_foldl text [] []]
  simp [joinNL]

/-- Witness for the amended C2: five `0x80` bytes then `"hi"`. -/
theorem C2_garbage_discarded_witness :
    ((0x80 : Nat) ≤ 0x80 ∧ (0x80 : Nat) < 0xC0) ∧
      (∀ c ∈ [104, 105], ValidScalar c ∧ c ≠ 12) ∧
      parse_to_prompt false
          ([0x80, 0x80, 0x80, 0x80, 0x80] ++ (utf8Encode [104, 105] ++ [12])) =
        some ([104, 105], []) :=
  ⟨by decide, by decide,
    C2_garbage_discarded_amended 0x80 0x80 0x80 0x80 0x80 (by decide) (by decide) (by decide) (by decide)
      (by decide) [104, 105] (by decide)⟩

/-- C4 counterexample: calling `close` on a session with no active child
process (never connected, or already closed) raises `AttributeError`
(`self.bot` is `None` and `None.kill` does not exist) — it is not safe. -/
theorem C4_counterexample_close_none_raises :
    Session.close { model := "gpt4all-lora-quantized", bot := none } =
      Except.error "AttributeError: NoneType object has no attribute kill" := rfl

/-- C4 amended: when a process is active, `close` forcibly terminates it
with `kill` (not a graceful shutdown request) and clears the handle; when
no process is active, `close` raises `AttributeError` instead of being a
safe no-op (which is why `connect` guards its own call to `close`). -/
theorem C4_close_kills_or_raises (s : Session) :
    (s.bot = none →
      Session.close s =
        Except.error "AttributeError: NoneType object has no attribute kill") ∧
    (∀ pid, s.bot = some pid →
      Session.close s = Except.ok ({ s with bot := none }, [ProcAction.kill pid])) := by
  constructor
  · intro h
    unfold Session.close
    rw [h]
  · intro pid h
    unfold Session.close
    rw [h]

/-- Witness for the amended C4: closing a session with live pid 5 kills
it and clears the handle. -/
theorem C4_close_kills_or_raises_witness :
    Session.close { model := "gpt4all-lora-quantized", bot := some 5 } =
      Except.ok ({ model := "gpt4all-lora-quantized", bot := none }, [ProcAction.kill 5]) :=
  (C4_close_kills_or_raises { model := "gpt4all-lora-quantized", bot := some 5 }).2 5 rfl

/-- C8: `connect` invoked while a handle is already live closes (kills)
the existing process before spawning the new one, and immediately after
spawning invokes the reader once with echo disabled, discarding its
output; the resulting session holds exactly the one new handle. -/
theorem C8_connect_single_handle (s : Session) (p newPid : Nat) (banner : List Nat)
    (hb : s.bot = some p) (r : List Nat × List Nat)
    (hr : parse_to_prompt false banner = some r) :
    Session.connect s newPid banner =
      Except.ok (some ({ s with bot := some newPid },
        [ProcAction.kill p, ProcAction.spawn newPid, ProcAction.readOutput false])) := by
  unfold Session.connect Session.close
  rw [hb, hr]
  rfl

/-- Witness for C8: reconnecting a session with live pid 7 kills 7,
spawns 9, and drains the banner with echo disabled. -/
theorem C8_connect_single_handle_witness :
    ((⟨"gpt4all-lora-quantized", some 7⟩ : Session).bot = some 7) ∧
      parse_to_prompt false [12] = some ([], []) ∧
      Session.connect ⟨"gpt4all-lora-quantized", some 7⟩ 9 [12] =
        Except.ok (some (⟨"gpt4all-lora-quantized", some 9⟩,
          [ProcAction.kill 7, ProcAction.spawn 9, ProcAction.readOutput false])) :=
  ⟨rfl, by decide,
    C8_connect_single_handle ⟨"gpt4all-lora-quantized", some 7⟩ 7 9 [12] rfl ([], []) (by decide)⟩

/-- C10: the `GPT4All` constructor raises `AssertionError` exactly for
model names other than the two accepted ones, before computing any file
path or attempting any download (the error carries no download actions). -/
theorem C10_model_name_assertion (model : String) (fd ee mf : Bool) :
    GPT4All_init model fd ee mf = Except.error "AssertionError" ↔
      ¬ (model = "gpt4all-lora-quantized" ∨
          model = "gpt4all-lora-unfiltered-quantized") := by
  unfold GPT4All_init
  split_ifs with h
  · simp [h]
  · simp [h]

/-- Witness for C10: an unsupported model name is rejected. -/
theorem C10_model_name_assertion_witness :
    GPT4All_init "some-other-model" false true true = Except.error "AssertionError" :=
  (C10_model_name_assertion "some-other-model" false true true).mpr (by decide)

/-- C3: contrary to the claim, a zero-token tokenization result is NOT
recovered by retokenizing the placeholder: the recursive call
`tokenize_text(EMPTY_PLACEHOLDER, add_special_tokens=False)` passes
neither a tokenizer nor a model, so it raises
`ValueError: Either tokenizer or model must be provided` (and even if it
returned, the `.ids` access on the returned plain list would raise
`AttributeError`).  Any tokenizer producing zero tokens for the given text
(as the configured tokenizer does for empty and whitespace-only strings)
makes `tokenize_text` raise instead of returning placeholder tokens. -/
theorem C3_zero_tokens_raises (load : NomicTextEmbeddingModel → String → List Nat)
    (encode : String → List Nat) (text : String) (h : encode text = []) :
    tokenize_text load text (some encode) none =
      Except.error "ValueError: Either tokenizer or model must be provided" := by
  simp [tokenize_text, h]

/-- Witness for C3: the empty string under a tokenizer with no tokens
for it. -/
theorem C3_zero_tokens_raises_witness :
    ((fun _ : String => ([] : List Nat)) "" = []) ∧
      tokenize_text (fun _ _ => [1]) "" (some (fun _ => [])) none =
        Except.error "ValueError: Either tokenizer or model must be provided" :=
  ⟨rfl, C3_zero_tokens_raises (fun _ _ => [1]) (fun _ => []) "" rfl⟩

/-- A tokenization that produces at least one token is returned as-is. -/
theorem tokenize_text_ok (load : NomicTextEmbeddingModel → String → List Nat)
    (tok : String → List Nat) (text : String) (h : tok text ≠ []) :
    tokenize_text load text (some tok) none = Except.ok (tok text) := by
  simp [tokenize_text, h]

/-- C7 counterexample: when the two texts genuinely tokenize to sequences
of different lengths (2 and 4), `create_sm_request_for_batch` raises
`ValueError` at `np.array(all_tokens, dtype=np.int32)` (inhomogeneous
shape) before any attention mask is built — no pair of arrays of shape
`[2, max_len]` is produced. -/
theorem C7_counterexample_ragged_lengths :
    create_sm_request_for_batch (fun _ _ => []) ["hello", "a longer sentence"]
        (fun t => if t = "hello" then [11, 12] else [21, 22, 23, 24]) =
      Except.error "ValueError: setting an array element with a sequence" := by
  have h1 : tokenize_text (fun _ _ => []) "hello"
      (some (fun t => if t = "hello" then [11, 12] else [21, 22, 23, 24])) none =
      Except.ok [11, 12] := by
    rw [tokenize_text_ok _ _ _ (by decide)]
    rfl
  have h2 : tokenize_text (fun _ _ => []) "a longer sentence"
      (some (fun t => if t = "hello" then [11, 12] else [21, 22, 23, 24])) none =
      Except.ok [21, 22, 23, 24] := by
    rw [tokenize_text_ok _ _ _ (by decide)]
    rfl
  simp [create_sm_request_for_batch, mapTokenize, h1, h2, npArray2DInt32]

/-- C7 amended: when the tokenizer gives both texts token sequences of one
common nonzero length `L` (as the configured tokenizer guarantees by
padding each encoding to a multiple of 64), the builder returns the two
`InferInput`s, both declared with the same shape `[2, L]` (the source
passes `input_ids.shape` for both), and each attention-mask row is
`[1]*len + [0]*(L - len)` — with equal lengths the zero padding is empty
and every row is `[1]*L`.  With unequal lengths the builder raises
instead (see the counterexample). -/
theorem C7_equal_length_batch (load : NomicTextEmbeddingModel → String → List Nat)
    (tok : String → List Nat) (L : Nat) (hL : L ≠ 0)
    (h1 : (tok "hello").length = L) (h2 : (tok "a longer sentence").length = L) :
    create_sm_request_for_batch load ["hello", "a longer sentence"] tok =
      Except.ok
        [{ name := "input_ids", shape := [2, L],
           data := [tok "hello", tok "a longer sentence"] },
         { name := "attention_mask", shape := [2, L],
           data := [List.replicate L 1, List.replicate L 1] }] := by
  have e1 : tokenize_text load "hello" (some tok) none = Except.ok (tok "hello") :=
    tokenize_text_ok load tok _ (by
      intro hnil
      apply hL
      rw [← h1, hnil]
      rfl)
  have e2 : tokenize_text load "a longer sentence" (some tok) none =
      Except.ok (tok "a longer sentence") :=
    tokenize_text_ok load tok _ (by
      intro hnil
      apply hL
      rw [← h2, hnil]
      rfl)
  simp [create_sm_request_for_batch, mapTokenize, e1, e2, npArray2DInt32, h1, h2]

/-- Witness for the amended C7: a tokenizer that pads every text to a
common length 2 yields both arrays with shape `[2, 2]`. -/
theorem C7_equal_length_batch_witness :
    create_sm_request_for_batch (fun _ _ => []) ["hello", "a longer sentence"]
        (fun _ => [5, 6]) =
      Except.ok
        [{ name := "input_ids", shape := [2, 2], data := [[5, 6], [5, 6]] },
         { name := "attention_mask", shape := [2, 2], data := [[1, 1], [1, 1]] }] :=
  C7_equal_length_batch (fun _ _ => []) (fun _ => [5, 6]) 2 (by decide) rfl rfl
